import Mathlib

/-!
Verification of the deno-ddb backup engine core against its specification.

The TypeScript sources are shallowly embedded: JS strings become `String`
or `List Char`, byte buffers become `List Nat`, nullable values become
`Option`, thrown errors become `Except`, and the content-addressed object
store on disk becomes an explicit list of stored objects threaded through
the operations.  The SHA-256 / gzip primitives are external collaborators
in the spec, so hashes and compressed sizes are carried as abstract data
computed outside the embedded code.
-/

namespace DDB

/-! ## Object store V5 (`hash-filesystem-v5.ts`, `backup-filesystem.ts`)

A `StoredObject` is one file in `files.db/<hh>/<hh>/<hash>.<size>`: its
identity pair `(hash, size)`, the decompressed content it holds, the
SHA-256 of that decompressed content (what `fs.hashZip` would return) and
the byte length of the gzip stream on disk.  A `LocalFile` is a source
file handed to `put`: its content, the SHA-256 of that content (what
`fs.hash`/`hashFile` would return) and the length of its compression. -/

structure StoredObject where
  hash : String
  size : Nat
  decompContent : List Nat
  decompHash : String
  compLength : Nat
  deriving DecidableEq, Repr

structure LocalFile where
  content : List Nat
  contentHash : String
  compLength : Nat
  deriving DecidableEq, Repr

abbrev StoreState := List StoredObject

/-- `HashFileSystemV5.getKey` builds `<hash>.<size>`; the leaf file name
(`keyFromFile` returns it unchanged) is the map key used by fsck. -/
def keyStr (hash : String) (size : Nat) : String :=
  hash ++ "." ++ toString size

/-- `HashFileSystemV5.exists(key)`: is there an object for `(hash, size)`. -/
def hfsExists (store : StoreState) (hash : String) (size : Nat) : Bool :=
  store.any fun o => o.hash == hash && o.size == size

/-- `HashFileSystemV5.store(file, key, ...)`: writes the (compressed)
bytes of `file` at the key's path. -/
def hfsStore (store : StoreState) (file : LocalFile) (hash : String) (size : Nat) :
    StoreState :=
  (store : List StoredObject) ++ [⟨hash, size, file.content, file.contentHash, file.compLength⟩]

/-- Total bytes the object store occupies on disk. -/
def diskBytes (store : StoreState) : Nat :=
  (store : List StoredObject).foldl (fun acc o => acc + o.compLength) 0

structure PutResult where
  stored : Bool
  deriving DecidableEq, Repr

/-- `BackupFileSystem.put(file, size, hash)`.  The source initialises
`let stored = true;` and never reassigns it; when the key already exists
the underlying `hfs.store` is skipped.  The third component records
whether `hfs.store` was invoked. -/
def bfsPut (store : StoreState) (file : LocalFile) (size : Nat) (hash : String) :
    StoreState × PutResult × Bool :=
  let ex := hfsExists store hash size
  if ex then (store, ⟨true⟩, false)
  else (hfsStore store file hash size, ⟨true⟩, true)

/-- `HashFileSystemV5.hashKey`: SHA-256 of the object's decompressed
content (`fs.hashZip`), abstracted as the stored `decompHash`. -/
def hfsHashKey (store : StoreState) (hash : String) (size : Nat) : String :=
  match (store : List StoredObject).find? (fun o => o.hash == hash && o.size == size) with
  | some o => o.decompHash
  | none => ""

/-- `HashFileSystemV5.compare` via `fs.compareZipWith`: byte-for-byte
comparison of the object's decompressed content with a plain file. -/
def hfsCompare (store : StoreState) (hash : String) (size : Nat)
    (plain : List Nat) : Bool :=
  match (store : List StoredObject).find? (fun o => o.hash == hash && o.size == size) with
  | some o => o.decompContent == plain
  | none => false

/-- A thrown JS error: `BackupFileSystem.assert` sets `name`; none of the
errors raised by this repository carry a Node-style `code` property. -/
structure JSError where
  name : String
  code : Option String
  deriving DecidableEq, Repr

/-- `BackupFileSystem.verify(size, hash, compareWith?)`: asserts the key
exists (`NOT_FOUND`), asserts `hashKey(key) == hash` (`ENTRY_CORRUPT`),
then — mirroring the source line
`if (compareWith) await hfs.compare(key, compareWith);` — awaits the
comparison and discards its boolean result. -/
def bfsVerify (store : StoreState) (size : Nat) (hash : String)
    (compareWith : Option (List Nat)) : Except JSError Unit :=
  if !hfsExists store hash size then .error ⟨"NOT_FOUND", none⟩
  else if hfsHashKey store hash size != hash then .error ⟨"ENTRY_CORRUPT", none⟩
  else
    match compareWith with
    | some plain =>
        let _ := hfsCompare store hash size plain
        .ok ()
    | none => .ok ()

/-! ## Source walker (`backup-source.ts`)

`Deno.FileInfo` is embedded as the fields `_backupFile` reads; `mtime` is
a nullable `Date`, embedded as `Option Int` of its epoch milliseconds.
`BackupInfo` is the materialised result of `BackupLog.getLastBackup`: its
`F` map is keyed by the joined absolute path and every `mtime` in it is a
`Date` built by `new Date(entry.mtime)` (so the string-typed-`mtime`
throw in `sameAsLastBackup` is unreachable on this input and not
modelled). -/

structure FileInfo where
  size : Nat
  mtime : Option Int
  deriving DecidableEq, Repr

structure InfoFileEntry where
  size : Nat
  mtime : Option Int
  hash : String
  deriving DecidableEq, Repr

structure BackupInfo where
  time : Int
  F : String → Option InfoFileEntry

/-- `sameAsLastBackup(a, b)` from `backup-source.ts`: sizes must be
equal; when both mtimes are Dates they must have equal `getTime()`,
otherwise the (loose) `a.mtime != b.mtime` comparison rejects a
Date/null mix and accepts null/null. -/
def sameAsLastBackup (a : FileInfo) (b : InfoFileEntry) : Bool :=
  if a.size != b.size then false
  else
    match a.mtime, b.mtime with
    | some x, some y => x == y
    | none, none => true
    | _, _ => false

structure FileDecision where
  hash : String
  modified : Char
  rehashed : Bool
  deriving DecidableEq, Repr

/-- The hash/modified decision inside `BackupSource._backupFile`.
`freshHash` stands for the SHA-256 that `fs.hash(fn)` would compute; the
`rehashed` flag records whether that call happens.  The guard
`if (!hash) hash = await fs.hash(fn, ...)` is a JS truthiness test, so
the hash is recomputed both when it was never assigned and when the
reused `last.hash` is the empty string (falsy). -/
def backupFileDecision (lastBackup : Option BackupInfo) (checkHash : Bool)
    (fn : String) (fstat : FileInfo) (freshHash : String) : FileDecision :=
  let step : Option String × Char :=
    match lastBackup with
    | some lb =>
      match lb.F fn, fstat.mtime with
      | some last, some mt =>
        if decide (mt ≤ lb.time) && sameAsLastBackup fstat last then
          if checkHash then (none, 'c') else (some last.hash, '-')
        else (none, 'u')
      | _, _ => (none, 'a')
    | none => (none, 'a')
  match step with
  | (some h, m) => if h = "" then ⟨freshHash, m, true⟩ else ⟨h, m, false⟩
  | (none, m) => ⟨freshHash, m, true⟩

structure BackedUp where
  files : Nat
  bytes : Nat
  deriving DecidableEq, Repr

structure BackupStats where
  skipped : Nat
  folders : Nat
  files : Nat
  bytes : Nat
  backedUp : BackedUp
  deriving DecidableEq, Repr

structure FRecord where
  hash : String
  modified : Char
  deriving DecidableEq, Repr

/-- The rest of `BackupSource._backupFile` on the success path: bump
`stats.files`/`stats.bytes`, call `instance.put` (which forwards to
`BackupFileSystem.put`), append the F record, and bump
`stats.backedUp.*` exactly when the returned `stored` flag is truthy.
Returns the new store, the new stats, the logged F record, and whether
`hfs.store` actually wrote bytes. -/
def backupFileStep (lastBackup : Option BackupInfo) (checkHash : Bool)
    (fn : String) (fstat : FileInfo) (file : LocalFile)
    (store : StoreState) (stats : BackupStats) :
    StoreState × BackupStats × FRecord × Bool :=
  let d := backupFileDecision lastBackup checkHash fn fstat file.contentHash
  let stats1 := { stats with files := stats.files + 1, bytes := stats.bytes + fstat.size }
  let (store1, res, invoked) := bfsPut store file fstat.size d.hash
  let stats2 :=
    if res.stored then
      { stats1 with backedUp := ⟨stats1.backedUp.files + 1, stats1.backedUp.bytes + fstat.size⟩ }
    else stats1
  (store1, stats2, ⟨d.hash, d.modified⟩, invoked)

/-! ## Byte pipe (`u8pipe.ts`)

Chunks are byte lists; the per-chunk md5 carried by the queue is a debug
integrity check (recomputed consistently on every queue operation) and
carries no data, so it is not modelled.  `push`/`shift`/`unshift` on the
JS array become append/head/cons on the list. -/

structure PipeState where
  chunks : List (List Nat)
  totIn : Nat
  totOut : Nat
  eof : Bool
  deriving DecidableEq, Repr

/-- `writeSync(chunk, isLast)`: queue the chunk, count its bytes, record
the eof flag. -/
def pipeWriteSync (st : PipeState) (chunk : List Nat) (isLast : Bool) : PipeState :=
  { st with
    chunks := st.chunks ++ [chunk]
    totIn := st.totIn + chunk.length
    eof := isLast }

/-- The `let chunk = chunks.shift(); while (chunk && byteLength == 0)
chunk = chunks.shift();` prologue of `read`: drop leading empty chunks
and de-queue the first non-empty one, if any. -/
def skipEmpty : List (List Nat) → Option (List Nat × List (List Nat))
  | [] => none
  | c :: q => if c.length = 0 then skipEmpty q else some (c, q)

/-- The fill loop of `read`:
`while (block.byteLength <= p.byteLength - offset) { copy; chunk =
chunks.shift(); if (!chunk) break; block = chunk.chunk; }`.
Returns the copied bytes, the remaining queue, and — when the loop
exited because the block in hand no longer fits — that block, which the
source has already shifted out of the queue. -/
def fillLoop (n : Nat) : List Nat → List (List Nat) → Nat → List Nat →
    List Nat × List (List Nat) × Option (List Nat)
  | block, [], offset, acc =>
    if block.length ≤ n - offset then (acc ++ block, [], none)
    else (acc, [], some block)
  | block, b :: q, offset, acc =>
    if block.length ≤ n - offset then fillLoop n b q (offset + block.length) (acc ++ block)
    else (acc, b :: q, some block)

inductive ReadResult where
  /-- bytes copied into the caller's buffer -/
  | bytes (data : List Nat)
  /-- `null`: end of stream; the flag records whether the
  `totBytesIn != totBytesOut` mismatch check fired -/
  | endOfStream (mismatch : Bool)
  /-- the entry `while (chunks.length == 0) { if (eof) break; await ... }`
  loop spins with no writer left to run -/
  | wouldBlock
  deriving DecidableEq, Repr

/-- `read(p)` of `u8pipe.ts` for a buffer of `n` bytes.  After the fill
loop, `if (offset > 0) return offset` returns the copied bytes — and
when the loop exited with an oversized block in hand, that block is
never put back on the queue.  Only with `offset == 0` does the
"chunk too big" path split the block and `unshift` the remainder. -/
def pipeRead (st : PipeState) (n : Nat) : ReadResult × PipeState :=
  if st.chunks.isEmpty && !st.eof then (.wouldBlock, st)
  else
    match skipEmpty st.chunks with
    | none =>
        (.endOfStream (st.totIn != st.totOut), { st with chunks := [] })
    | some (block, q) =>
        match fillLoop n block q 0 [] with
        | (acc, q2, leftover) =>
          if acc.length > 0 then
            (.bytes acc, { st with chunks := q2, totOut := st.totOut + acc.length })
          else
            match leftover with
            | some big =>
                (.bytes (big.take n),
                 { st with chunks := big.drop n :: q2, totOut := st.totOut + n })
            | none =>
                -- unreachable: the first de-queued chunk is non-empty, so
                -- exhausting the queue leaves `offset > 0`
                (.bytes acc, { st with chunks := q2 })

/-! ## Manifest hashes and fsck (`backup-log.ts`, `fs.ts` LocalBackup) -/

/-- A parsed manifest record, reduced to the fields the live-set
computation reads (`BackupLog.getHashesFromInstanceLog` only looks at
`type`, `hash`, `size`). -/
inductive LogEntry where
  | header (version : String)
  | source (root : String)
  | file (type : Char) (size : Nat) (hash : String) (path : String)
  | status (status : String)
  | unknown (line : String)
  deriving DecidableEq, Repr

/-- `getHashesFromInstanceLog`: accumulate `<hash>.<size>` keys of every
F record into the hash map (the map's per-key `count` does not influence
fsck, so only the distinct keys are kept). -/
def getHashes (entries : List LogEntry) (acc : List String) : List String :=
  entries.foldl
    (fun acc e =>
      match e with
      | .file ty size hash _ =>
        if ty = 'F' then
          let key := keyStr hash size
          if acc.contains key then acc else acc ++ [key]
        else acc
      | _ => acc)
    acc

structure FsckStats where
  total : Nat
  verified : Nat
  damaged : Nat
  orphaned : Nat
  missing : Nat
  deriving DecidableEq, Repr

/-- `LocalBackup.fsck`: `_scanFs` walks every leaf of `files.db/` (here:
every stored object), counts it, classifies it as orphaned when its key
is not in the live hash map, otherwise verifies it via
`BackupFileSystem.verify` — marking `hashes[key].seen` only in the
success branch — and finally counts every live key that was never marked
`seen` as missing. -/
def fsckRun (live : List String) (store : StoreState) : FsckStats :=
  let scanned :=
    store.foldl
      (fun (acc : FsckStats × List String) o =>
        let (st, seen) := acc
        let st := { st with total := st.total + 1 }
        let key := keyStr o.hash o.size
        if key.length = 0 then (st, seen)
        else if !live.contains key then
          ({ st with orphaned := st.orphaned + 1 }, seen)
        else
          match bfsVerify store o.size o.hash none with
          | .ok _ => ({ st with verified := st.verified + 1 }, key :: seen)
          | .error _ => ({ st with damaged := st.damaged + 1 }, seen))
      (⟨0, 0, 0, 0, 0⟩, [])
  let (st, seen) := scanned
  { st with missing := (live.filter fun k => !seen.contains k).length }

/-! ## Per-file verify reporting (`backup-instance.ts`) -/

inductive VerifyReport where
  | OK
  | CHANGED
  | DELETED
  | ERR
  deriving DecidableEq, Repr

/-- The F-record arm of `BackupInstance.verify`: build the comparison
path when `--compare` is on, call `BackupFileSystem.verify`, and map a
thrown error by its `code` property — `'ENOCOMPARE'` to CHANGED,
`'ENOENT'` to DELETED, anything else to ERROR. -/
def reportF (store : StoreState) (size : Nat) (hash : String)
    (compare : Bool) (localContent : Option (List Nat)) : VerifyReport :=
  match bfsVerify store size hash (if compare then localContent else none) with
  | .ok _ => .OK
  | .error e =>
    if e.code == some "ENOCOMPARE" then .CHANGED
    else if e.code == some "ENOENT" then .DELETED
    else .ERR

/-! ## Filter engine (`filter.ts`)

`Filter._init` turns each glob into a JS regex by a chain of string
replacements and tests it with `re.test`, i.e. the regex — anchored with
a leading `^` but not with a trailing `$` — must match some prefix of
the path.  The chain is embedded literally: pass 1 rewrites every
`**/` (or `**\`) occurrence, pass 2 every remaining `**`, then `.` is
replaced by the two-character string `'\.'` — which in a JS string
literal is just `'.'`, so dots stay unescaped and match any character —
then separators become the class `[/\\]` and a single `*` becomes
`[^/\\]*`.  The placeholders expand to `.+[\\/]` and `.*`. -/

def isSepChar (c : Char) : Bool :=
  c == '/' || c.val == 92

/-- Regex fragment produced by the compilation chain. -/
inductive GTok where
  /-- a character matched literally -/
  | lit (c : Char)
  /-- `.` — an unescaped dot, matching any character -/
  | anyChar
  /-- `[/\\]` -/
  | sep
  /-- `[^/\\]*` -/
  | nonSepStar
  /-- `.*` -/
  | dotStar
  /-- `.+` (first half of the `**/` expansion) -/
  | dotPlus
  deriving DecidableEq, Repr

/-- Intermediate symbol: a plain character or one of the two
`{STARSTARGLOBSLASH}` / `{STARSTARGLOB}` placeholders. -/
inductive RSym where
  | ch (c : Char)
  | ssgs
  | ssg
  deriving DecidableEq, Repr

/-- Pass 1: `.replace(/\*\*[\\\/]/g, ...)` — global leftmost rewriting
of `**` followed by a separator; on a failed match the scan advances one
character. -/
def phase1 : List Char → List RSym
  | '*' :: '*' :: c :: r =>
    if isSepChar c then .ssgs :: phase1 r
    else .ch '*' :: phase1 ('*' :: c :: r)
  | c :: r => .ch c :: phase1 r
  | [] => []
  termination_by l => l.length
  decreasing_by all_goals (simp; try omega)

/-- Pass 2: `.replace(/\*\*/g, ...)` on what pass 1 left. -/
def phase2 : List RSym → List RSym
  | .ch '*' :: .ch '*' :: r => .ssg :: phase2 r
  | s :: r => s :: phase2 r
  | [] => []

/-- Passes 3–7: dots stay unescaped (`'\.'` is `'.'`), separators and
single stars become their classes, placeholders expand. -/
def toTok : List RSym → List GTok
  | [] => []
  | .ssgs :: r => .dotPlus :: .sep :: toTok r
  | .ssg :: r => .dotStar :: toTok r
  | .ch c :: r =>
    (if isSepChar c then GTok.sep
     else if c == '.' then GTok.anyChar
     else if c == '*' then GTok.nonSepStar
     else GTok.lit c) :: toTok r

def compileGlob (p : List Char) : List GTok :=
  toTok (phase2 (phase1 p))

/-- Existential prefix matching of the compiled regex `^...`: exactly
what `re.test(str)` decides for a regex with no trailing anchor. -/
def rmatch : List GTok → List Char → Bool
  | [], _ => true
  | .lit c :: ts, x :: s => x == c && rmatch ts s
  | .lit _ :: _, [] => false
  | .anyChar :: ts, _ :: s => rmatch ts s
  | .anyChar :: _, [] => false
  | .sep :: ts, x :: s => isSepChar x && rmatch ts s
  | .sep :: _, [] => false
  | .nonSepStar :: ts, [] => rmatch ts []
  | .nonSepStar :: ts, x :: s =>
    rmatch ts (x :: s) || (!isSepChar x && rmatch (.nonSepStar :: ts) s)
  | .dotStar :: ts, [] => rmatch ts []
  | .dotStar :: ts, x :: s => rmatch ts (x :: s) || rmatch (.dotStar :: ts) s
  | .dotPlus :: _, [] => false
  | .dotPlus :: ts, _ :: s => rmatch ts s || rmatch (.dotPlus :: ts) s
  termination_by ts s => (s.length, ts.length)

structure FilterItem where
  type : Char
  toks : List GTok
  deriving DecidableEq, Repr

/-- The recursion of `Filter._init`'s `re` for one pattern type and
glob: when the glob starts with `**/` (or `**\`) the glob is first
re-compiled with that prefix stripped (so `**/x` also matches bare `x`
at the root), then the main compiled item is pushed. -/
def compileItems (ty : Char) : List Char → List FilterItem
  | '*' :: '*' :: c :: rest =>
    (if isSepChar c then compileItems ty rest else []) ++
      [⟨ty, compileGlob ('*' :: '*' :: c :: rest)⟩]
  | p => [⟨ty, compileGlob p⟩]

/-- One pattern split into its leading type character and glob. -/
def compilePattern : List Char → List FilterItem
  | ty :: p => compileItems ty p
  | [] => []

def initFilters (patterns : List (List Char)) : List FilterItem :=
  (patterns.map compilePattern).flatten

def itemTest (it : FilterItem) (s : List Char) : Bool :=
  rmatch it.toks s

/-- `Filter.ignores(str)`: `let ignored = null; for each filter, if the
regex tests true, ignored becomes the filter when its type is '-' and
null otherwise; return ignored`. -/
def ignores (items : List FilterItem) (s : List Char) : Option FilterItem :=
  items.foldl
    (fun acc it =>
      if itemTest it s then (if it.type = '-' then some it else none) else acc)
    none

/-- The specification's reading of the loop: the last filter in list
order whose pattern matches. -/
def lastMatching (items : List FilterItem) (s : List Char) : Option FilterItem :=
  items.reverse.find? fun it => itemTest it s

/-! ## Manifest log timestamps (`backup-log.ts`)

JS strings are embedded as `List Char` here.  A JS `Date` is embedded by
its UTC calendar fields; `Date.prototype.toISOString` (ECMA-262) prints
`YYYY-MM-DDTHH:mm:ss.sssZ` with a four-digit year when the year is in
0..9999 and the expanded form `±YYYYYY-...` otherwise (JS dates range
over years -271821..275760). -/

structure JSDate where
  year : Int
  month : Nat
  day : Nat
  hour : Nat
  minute : Nat
  second : Nat
  ms : Nat
  deriving DecidableEq, Repr

def JSDate.Valid (d : JSDate) : Prop :=
  1 ≤ d.month ∧ d.month ≤ 12 ∧ 1 ≤ d.day ∧ d.day ≤ 31 ∧
  d.hour ≤ 23 ∧ d.minute ≤ 59 ∧ d.second ≤ 59 ∧ d.ms ≤ 999 ∧
  -271821 ≤ d.year ∧ d.year ≤ 275760

instance (d : JSDate) : Decidable d.Valid := by unfold JSDate.Valid; infer_instance

def digitChar : Nat → Char
  | 0 => '0'
  | 1 => '1'
  | 2 => '2'
  | 3 => '3'
  | 4 => '4'
  | 5 => '5'
  | 6 => '6'
  | 7 => '7'
  | 8 => '8'
  | _ => '9'

/-- Two-digit zero-padded decimal, for field values below 100. -/
def pad2 (n : Nat) : List Char :=
  [digitChar (n / 10 % 10), digitChar (n % 10)]

def pad3 (n : Nat) : List Char :=
  [digitChar (n / 100 % 10), digitChar (n / 10 % 10), digitChar (n % 10)]

def pad4 (n : Nat) : List Char :=
  [digitChar (n / 1000 % 10), digitChar (n / 100 % 10),
   digitChar (n / 10 % 10), digitChar (n % 10)]

def pad6 (n : Nat) : List Char :=
  [digitChar (n / 100000 % 10), digitChar (n / 10000 % 10),
   digitChar (n / 1000 % 10), digitChar (n / 100 % 10),
   digitChar (n / 10 % 10), digitChar (n % 10)]

/-- `Date.prototype.toISOString` on the embedded date. -/
def toISOChars (d : JSDate) : List Char :=
  (if 0 ≤ d.year ∧ d.year ≤ 9999 then pad4 d.year.toNat
   else (if d.year < 0 then ['-'] else ['+']) ++ pad6 d.year.natAbs) ++
  '-' :: pad2 d.month ++ '-' :: pad2 d.day ++
  'T' :: pad2 d.hour ++ ':' :: pad2 d.minute ++ ':' :: pad2 d.second ++
  '.' :: pad3 d.ms ++ ['Z']

/-- Keep a character iff `.replace(/[\-:\.]/g, '')` keeps it. -/
def sepKeep (c : Char) : Bool :=
  !(c == '-' || c == ':' || c == '.')

def stripSeps (s : List Char) : List Char :=
  s.filter sepKeep

/-- The argument of `BackupLog.parseWhen`: a string or a `Date`. -/
inductive WhenArg where
  | str (v : List Char)
  | date (v : JSDate)

/-- `BackupLog.parseWhen`: `'current'`/`'running'` pass through; a Date
is first rendered with `toISOString`; then `-`, `:` and `.` are
stripped. -/
def parseWhen : WhenArg → List Char
  | .str v =>
    if v = "current".toList ∨ v = "running".toList then v else stripSeps v
  | .date v => stripSeps (toISOChars v)

/-- `substr(start, len)` on the embedded string. -/
def jsSubstr (s : List Char) (start len : Nat) : List Char :=
  (s.drop start).take len

/-- `BackupLog.ext2iso`: re-insert the separators at fixed offsets. -/
def ext2iso (ext : List Char) : List Char :=
  jsSubstr ext 0 4 ++ '-' :: jsSubstr ext 4 2 ++ '-' :: jsSubstr ext 6 2 ++
  'T' :: jsSubstr ext 9 2 ++ ':' :: jsSubstr ext 11 2 ++ ':' :: jsSubstr ext 13 2 ++
  '.' :: ext.drop 15

/-! ## `BackupLog.exists` (`backup-log.ts` with `fs.ts`'s `exists`)

`fs.exists` wraps std's `exists`, which resolves with a boolean for both
the found and the not-found case; the on-disk state is embedded as a
predicate on paths. -/

def fsExists (disk : String → Bool) (p : String) : Bool :=
  disk p

def getLogName (root userid setname when : String) : String :=
  root ++ "/backups/" ++ userid ++ "/" ++ setname ++ "." ++ when

/-- `BackupLog.exists(when)`: `try { await fs.exists(name); return true }
catch { /* return undefined */ }`.  The awaited boolean is discarded and
the catch arm (`none`, i.e. `undefined`) is unreachable because
`fs.exists` resolves instead of throwing. -/
def logExists (disk : String → Bool) (root userid setname when : String) :
    Option Bool :=
  let _ := fsExists disk (getLogName root userid setname when)
  some true

/-! ## Concrete scenario data (spec §8, scenarios S1–S3)

`"hello\n"` is the single backed-up file of scenario S1; its SHA-256 is
the spec's `5891…03`.  `emptySha` is the SHA-256 of the empty byte
string, standing for what decompressing a truncated object yields. -/

def helloHash : String :=
  "5891b5b522d5df086d0ff0b110fbd9d21bb4fc7163af34d08286a2e846f6be03"

def helloFile : LocalFile := ⟨[104, 101, 108, 108, 111, 10], helloHash, 26⟩

def storeS1 : StoreState := [⟨helloHash, 6, helloFile.content, helloHash, 26⟩]

def emptySha : String :=
  "e3b0c44298fc1c149afbf4c8996fb92427ae41e4649b934ca495991b7852b855"

/-- The S1 manifest, parsed. -/
def logS1 : List LogEntry :=
  [.header "2", .source "/src", .file 'F' 6 helloHash "a.txt", .status "OK"]

def liveS1 : List String := getHashes logS1 []

/-- `getLastBackup` materialised from the S1 manifest: keyed by the
joined absolute path, times in epoch milliseconds. -/
def lastBackupS1 : BackupInfo :=
  ⟨1000, fun p => if p = "/src/a.txt" then some ⟨6, some 500, helloHash⟩ else none⟩

/-- The unchanged stat of `/src/a.txt` on the second run. -/
def statA : FileInfo := ⟨6, some 500⟩

def emptyStats : BackupStats := ⟨0, 0, 0, 0, ⟨0, 0⟩⟩

/-- One `_backupFile` call of the S2 re-run over the unchanged source. -/
def secondRun : StoreState × BackupStats × FRecord × Bool :=
  backupFileStep (some lastBackupS1) false "/src/a.txt" statA helloFile storeS1 emptyStats

/-! ## Claims -/

/-- C1.  Re-running over an unchanged source with the S1 run as
`last_backup`: the walker does emit an F record with modified `'-'` and
the reused hash, and `put` returns `{stored: true}` without invoking the
underlying store — but `stats.backedUp.files` ends at 1, not 0, because
`BackupFileSystem.put` initialises `let stored = true` and never clears
it, so the walker's `if (stored)` guard fires for every file.  The claim
that the backed-up counter stays 0 fails on the code. -/
theorem second_run_counts_backedUp :
    secondRun.2.2.1 = ⟨helloHash, '-'⟩ ∧
    secondRun.1 = storeS1 ∧
    secondRun.2.2.2 = false ∧
    secondRun.2.1.backedUp.files = 1 ∧
    secondRun.2.1.backedUp.files ≠ 0 := by
  decide

theorem hfsExists_hfsStore_self (store : StoreState) (file : LocalFile)
    (sz : Nat) (h : String) :
    hfsExists (hfsStore store file h sz) h sz = true := by
  simp [hfsExists, hfsStore, List.any_append]

/-- C2.  `put` is idempotent: when the key already exists it performs no
write (the store routine is not invoked, the state — hence the on-disk
byte count — is unchanged) and returns `{stored: true}`; and for any
starting state, two successive `put`s with the same arguments both
return `{stored: true}` and the second leaves the store byte-identical. -/
theorem put_idempotent (store : StoreState) (file : LocalFile) (sz : Nat)
    (h : String) :
    (hfsExists store h sz = true →
      bfsPut store file sz h = (store, ⟨true⟩, false)) ∧
    (bfsPut store file sz h).2.1.stored = true ∧
    (bfsPut (bfsPut store file sz h).1 file sz h).2.1.stored = true ∧
    (bfsPut (bfsPut store file sz h).1 file sz h).1 = (bfsPut store file sz h).1 ∧
    diskBytes (bfsPut (bfsPut store file sz h).1 file sz h).1
      = diskBytes (bfsPut store file sz h).1 := by
  refine ⟨fun hex => by simp [bfsPut, hex], ?_⟩
  by_cases hex : hfsExists store h sz = true
  · simp [bfsPut, hex]
  · rw [Bool.not_eq_true] at hex
    simp [bfsPut, hex, hfsExists_hfsStore_self]

theorem put_idempotent_witness :
    bfsPut storeS1 helloFile 6 helloHash = (storeS1, ⟨true⟩, false) ∧
    (bfsPut (bfsPut storeS1 helloFile 6 helloHash).1 helloFile 6 helloHash).2.1.stored
      = true :=
  ⟨(put_idempotent storeS1 helloFile 6 helloHash).1 (by decide),
   (put_idempotent storeS1 helloFile 6 helloHash).2.2.1⟩

/-- The pipe after `writeSync([1,2], false)` then a final 10-byte
`writeSync(..., true)`. -/
def pipeScenario : PipeState :=
  pipeWriteSync (pipeWriteSync ⟨[], 0, 0, false⟩ [1, 2] false)
    [3, 4, 5, 6, 7, 8, 9, 10, 11, 12] true

/-- C3.  The pipe loses bytes for some read-buffer sizes: with chunks of
2 and 10 bytes queued and a 5-byte read buffer, the first `read` copies
the 2-byte chunk, shifts the 10-byte chunk inside its fill loop, finds
it does not fit the remaining 3 bytes, and returns without re-queuing it
— the 10 bytes are silently discarded.  The next `read` hits
end-of-stream with `totBytesIn = 12 ≠ 2 = totBytesOut`, firing the
code's own `stream input/output mismatch` check.  The claimed
"bytes out equals bytes in at EOF for any buffer sizes" fails. -/
theorem pipe_read_drops_queued_chunk :
    (pipeRead pipeScenario 5).1 = .bytes [1, 2] ∧
    (pipeRead pipeScenario 5).2.chunks = [] ∧
    (pipeRead (pipeRead pipeScenario 5).2 5).1 = .endOfStream true ∧
    (pipeRead pipeScenario 5).2.totIn = 12 ∧
    (pipeRead pipeScenario 5).2.totOut = 2 := by
  decide

/-- The S1 object store after the stored object is truncated to zero
bytes: decompressing yields the empty content, whose SHA-256 is
`emptySha ≠ helloHash`. -/
def storeS1damaged : StoreState := [⟨helloHash, 6, [], emptySha, 0⟩]

/-- C4.  fsck over the S1 manifest with the truncated object reports
total 1, verified 0, damaged 1, orphaned 0 — but missing 1, not the
claimed 0: `hashes[key].seen` is set only in the verified branch, so the
damaged object's key is also counted missing even though it is on
disk. -/
theorem fsck_damaged_object_also_missing :
    fsckRun liveS1 storeS1damaged = ⟨1, 0, 1, 0, 1⟩ ∧
    (fsckRun liveS1 storeS1damaged).missing ≠ 0 := by
  decide

/-- A local file whose last byte differs from the stored `"hello\n"`. -/
def localChanged : List Nat := [104, 101, 108, 108, 111, 33]

/-- C5.  When `--compare` finds diverging content, the per-file line is
OK, not CHANGED: `BackupFileSystem.verify` awaits `hfs.compare` and
discards its `false`, nothing in the repository ever throws an error
with code `ENOCOMPARE`, so the CHANGED arm of `BackupInstance.verify` is
unreachable and the divergence is ignored. -/
theorem verify_compare_divergence_reports_ok :
    hfsCompare storeS1 helloHash 6 localChanged = false ∧
    reportF storeS1 6 helloHash true (some localChanged) = .OK ∧
    VerifyReport.OK ≠ VerifyReport.CHANGED := by
  decide

/-- A prior-run entry whose recorded hash is the empty string. -/
def lastBackupEmptyHash : BackupInfo :=
  ⟨1000, fun p => if p = "/src/a.txt" then some ⟨6, some 500, ""⟩ else none⟩

/-- C6 counterexample.  The claim quantifies over every prior entry, but
when the entry's hash is the empty string the `if (!hash)` truthiness
guard of `_backupFile` fails and the file is rehashed after all: the
emitted F record carries the freshly computed hash — not the prior
entry's hash — and the hash function is invoked, though the modified
code stays `'-'`. -/
theorem skip_path_empty_hash_rehashes :
    backupFileDecision (some lastBackupEmptyHash) false "/src/a.txt" statA
        "f572d396fae9206628714fb2ce00f72e94f2258f0982a2a5a29ac8b4b7a71c59"
      = ⟨"f572d396fae9206628714fb2ce00f72e94f2258f0982a2a5a29ac8b4b7a71c59", '-', true⟩ ∧
    (lastBackupEmptyHash.F "/src/a.txt").map InfoFileEntry.hash
      ≠ some "f572d396fae9206628714fb2ce00f72e94f2258f0982a2a5a29ac8b4b7a71c59" := by
  decide

/-- C6 (amended).  The skip-hash path: with a prior entry for the file
whose recorded hash is non-empty, stat mtime at most the prior run's
time, equal size and exactly equal mtime, and `check_hash` off, the
walker reuses the prior hash, marks `'-'`, and never invokes the hash
function.  (An empty prior hash is JS-falsy and fails the `if (!hash)`
guard, forcing a rehash while keeping modified `'-'`.) -/
theorem skip_path_reuses_hash (lb : BackupInfo) (fn : String) (fstat : FileInfo)
    (last : InfoFileEntry) (t : Int) (freshHash : String)
    (hF : lb.F fn = some last) (hmt : fstat.mtime = some t)
    (hle : t ≤ lb.time) (hsz : fstat.size = last.size)
    (hlm : last.mtime = some t) (hne : last.hash ≠ "") :
    backupFileDecision (some lb) false fn fstat freshHash
      = ⟨last.hash, '-', false⟩ := by
  have hsame : sameAsLastBackup fstat last = true := by
    unfold sameAsLastBackup
    rw [hmt, hlm]
    simp [hsz]
  have hdec : decide (t ≤ lb.time) = true := decide_eq_true hle
  unfold backupFileDecision
  simp only [hF, hmt, hsame, hdec, Bool.and_self, if_true, Bool.false_eq_true,
    if_false, if_neg hne]

theorem skip_path_reuses_hash_witness :
    backupFileDecision (some lastBackupS1) false "/src/a.txt" statA "freshhash"
      = ⟨helloHash, '-', false⟩ :=
  skip_path_reuses_hash lastBackupS1 "/src/a.txt" statA ⟨6, some 500, helloHash⟩
    500 "freshhash" (by decide) rfl (by decide) rfl rfl (by decide)

theorem find?_match_append {α : Type} (p : α → Bool) (l₁ l₂ : List α) :
    (l₁ ++ l₂).find? p =
      match l₁.find? p with
      | some x => some x
      | none => l₂.find? p := by
  induction l₁ with
  | nil => simp
  | cons a l ih =>
    by_cases h : p a
    · simp [List.find?_cons, h]
    · simp [List.find?_cons, h, ih]

theorem ignores_foldl_eq (s : List Char) (items : List FilterItem) :
    ∀ a : Option FilterItem,
      items.foldl
        (fun acc it =>
          if itemTest it s then (if it.type = '-' then some it else none) else acc)
        a =
      match items.reverse.find? (fun it => itemTest it s) with
      | some it => if it.type = '-' then some it else none
      | none => a := by
  induction items with
  | nil => intro a; rfl
  | cons it rest ih =>
    intro a
    rw [List.foldl_cons, ih]
    rw [List.reverse_cons, find?_match_append]
    cases hfind : rest.reverse.find? (fun it => itemTest it s) with
    | some j => rfl
    | none =>
      by_cases hts : itemTest it s
      · simp [List.find?_cons, hts]
      · simp [List.find?_cons, hts]

/-- C8.  `ignores` is last-match-wins: it returns the last filter in
list order whose compiled regex matches when that filter excludes
(`'-'`), and null when the last match includes (`'+'`) or nothing
matches; in particular `["-*", "+keep.txt"]` does not ignore
`keep.txt`. -/
theorem ignores_last_match_wins (items : List FilterItem) (s : List Char) :
    ignores items s =
      (lastMatching items s).bind
        (fun it => if it.type = '-' then some it else none) ∧
    ignores (initFilters ["-*".toList, "+keep.txt".toList]) "keep.txt".toList
      = none := by
  constructor
  · rw [ignores, lastMatching, ignores_foldl_eq]
    cases items.reverse.find? (fun it => itemTest it s) <;> rfl
  · simp [ignores, initFilters, compilePattern, compileItems, compileGlob,
      phase1, phase2, toTok, itemTest, rmatch, isSepChar]

/-- C9.  Compiled patterns are anchored only at the start: the
wildcard-free pattern `-skip` matches the strictly longer path
`skipme.txt` (which merely begins with `skip`) just as it matches
`skip` itself. -/
theorem pattern_matches_path_prefix :
    (ignores (initFilters ["-skip".toList]) "skip".toList).isSome = true ∧
    (ignores (initFilters ["-skip".toList]) "skipme.txt".toList).isSome = true ∧
    "skipme.txt".toList.take 4 = "skip".toList ∧
    4 < "skipme.txt".toList.length := by
  refine ⟨?_, ?_, by decide, by decide⟩ <;>
    simp [ignores, initFilters, compilePattern, compileItems, compileGlob,
      phase1, phase2, toTok, itemTest, rmatch, isSepChar]

theorem sepKeep_digitChar (d : Nat) : sepKeep (digitChar d) = true := by
  rcases d with _ | _ | _ | _ | _ | _ | _ | _ | _ | d <;> rfl

/-- C7 (amended).  For every JS date whose year is in 0..9999 — so that
`toISOString` prints the four-digit-year form — stripping `-`, `:`, `.`
and re-inserting separators at the fixed offsets reconstructs the ISO
string exactly: `ext2iso (parseWhen d) = d.toISOString()`. -/
theorem ext2iso_parseWhen_roundtrip (d : JSDate) (_hv : d.Valid)
    (h0 : 0 ≤ d.year) (h1 : d.year ≤ 9999) :
    ext2iso (parseWhen (.date d)) = toISOChars d := by
  have k1 : sepKeep '-' = false := rfl
  have k2 : sepKeep ':' = false := rfl
  have k3 : sepKeep '.' = false := rfl
  have k4 : sepKeep 'T' = true := rfl
  have k5 : sepKeep 'Z' = true := rfl
  simp only [parseWhen, toISOChars, if_pos (And.intro h0 h1), stripSeps,
    pad4, pad2, pad3, List.cons_append, List.nil_append, List.filter_cons,
    List.filter_nil, sepKeep_digitChar, k1, k2, k3, k4, k5, if_true, if_false,
    Bool.false_eq_true, ext2iso, jsSubstr, List.drop_succ_cons, List.take_succ_cons,
    List.drop_zero, List.take_zero, List.take_nil, List.drop_nil]

theorem ext2iso_parseWhen_roundtrip_witness :
    ext2iso (parseWhen (.date ⟨2024, 1, 15, 13, 45, 12, 345⟩))
      = toISOChars ⟨2024, 1, 15, 13, 45, 12, 345⟩ :=
  ext2iso_parseWhen_roundtrip ⟨2024, 1, 15, 13, 45, 12, 345⟩ (by decide)
    (by decide) (by decide)

/-- C7 counterexample.  The claim quantifies over every `Date`, but a JS
date in year 10000 is valid and `toISOString` then prints the expanded
`+010000-...` form, whose stripped version does not survive the
fixed-offset reconstruction. -/
theorem ext2iso_parseWhen_not_universal :
    JSDate.Valid ⟨10000, 1, 1, 0, 0, 0, 0⟩ ∧
    ext2iso (parseWhen (.date ⟨10000, 1, 1, 0, 0, 0, 0⟩))
      ≠ toISOChars ⟨10000, 1, 1, 0, 0, 0, 0⟩ := by
  decide

/-- C10.  `BackupLog.exists` resolves to `true` for every `when` and
every on-disk state — the boolean from `fs.exists` is discarded and the
catch arm returning `undefined` is unreachable, so the result does not
depend on whether the log file exists. -/
theorem logExists_always_some_true (disk disk2 : String → Bool)
    (root userid setname when : String) :
    logExists disk root userid setname when = some true ∧
    logExists disk root userid setname when
      = logExists disk2 root userid setname when :=
  ⟨rfl, rfl⟩

end DDB
